import Mathlib

/-!
Verification model of the Firestore-to-BigQuery streaming core (`utils.js`,
the event handlers and `settings.js`).

JavaScript runtime values reachable in the decode pipeline are modelled by
the inductive `JVal` (null, string, boolean, integer number, array, object).
Protobuf-decoded variant values such as `{stringValue: "x"}` are ordinary
objects in this model, exactly as in the source.  The two decode loops
(`cleanupFieldsData`, `cleanupAndFlattenFields`) are explicit work-list
machines as in the source; the unbounded `while` loops are modelled with a
step budget (`fuel`), and every theorem either hypothesises a successful run
or exhibits a sufficient budget.  Thrown `TypeError`s are modelled with
`Except String`.  The configuration files that are loaded from outside the
core (`tableSchemas.js`, `arraysToBeFlattened.js`) are passed in as a
`Config` record; the policy tables defined inside `utils.js` itself
(`ignoredKeys`, `wrongKeys`, `mixedStringAndObjectTypes`) are transcribed
literally.
-/

/-- Model of a JavaScript value as it occurs in the decoded event data:
null, string, boolean, integer-valued number, array, plain object. -/
inductive JVal where
  | jNull : JVal
  | jStr : String → JVal
  | jBool : Bool → JVal
  | jNum : Int → JVal
  | jArr : List JVal → JVal
  | jObj : List (String × JVal) → JVal

namespace JVal

mutual

/-- Structural equality of modelled JS values (used for `Set.has` /
SameValueZero membership tests on decoded scalars). -/
def beq : JVal → JVal → Bool
  | jNull, jNull => true
  | jStr a, jStr b => a = b
  | jBool a, jBool b => a = b
  | jNum a, jNum b => a = b
  | jArr a, jArr b => beqList a b
  | jObj a, jObj b => beqFields a b
  | _, _ => false

def beqList : List JVal → List JVal → Bool
  | [], [] => true
  | a :: as, b :: bs => beq a b && beqList as bs
  | _, _ => false

def beqFields : List (String × JVal) → List (String × JVal) → Bool
  | [], [] => true
  | a :: as, b :: bs => (a.1 = b.1 : Bool) && beq a.2 b.2 && beqFields as bs
  | _, _ => false

end

instance : BEq JVal := ⟨beq⟩

/-- Is the value null? -/
def jsIsNull : JVal → Bool
  | jNull => true
  | _ => false

/-- Models `value && typeof value === "object"`: arrays and plain objects pass,
null and primitives do not. -/
def jsIsObject : JVal → Bool
  | jArr _ => true
  | jObj _ => true
  | _ => false

/-- Models `Array.isArray(value)`. -/
def jsIsArray : JVal → Bool
  | jArr _ => true
  | _ => false

/-- JavaScript truthiness of a value. -/
def jsTruthy : JVal → Bool
  | jNull => false
  | jStr s => !s.data.isEmpty
  | jBool b => b
  | jNum n => n ≠ 0
  | jArr _ => true
  | jObj _ => true

/-- Models `for (const k in value)` enumeration: own enumerable keys of an object,
index keys of an array or a string, nothing for primitives and null. -/
def jsForIn : JVal → List (String × JVal)
  | jObj fs => fs
  | jArr l => l.enum.map (fun p => (toString p.1, p.2))
  | jStr s => s.data.enum.map (fun p => (toString p.1, jStr (String.singleton p.2)))
  | _ => []

/-- Property read `value[k]` for a fixed non-index property name, in a
context where `value` is known not to be null or undefined (or is reached
through optional chaining).  Primitives and arrays yield `undefined`
(`none`) for the property names used by the source (`fields`, `values`,
bag and common-field CIDs); object reads return the first binding. -/
def jsGet : JVal → String → Option JVal
  | jObj fs, k => fs.lookup k
  | _, _ => none

mutual

/-- JavaScript `String(v)` / `v.toString()` rendering for the values the
pipeline stringifies (`Number.prototype.toString` for integer numbers,
`Array.prototype.toString` = comma join with null rendered empty,
`Object.prototype.toString` for plain objects). -/
def jsToString : JVal → String
  | jNull => "null"
  | jStr s => s
  | jBool b => if b then "true" else "false"
  | jNum n => toString n
  | jObj _ => "[object Object]"
  | jArr l => jsToStringArr l

/-- Comma join used by `Array.prototype.toString`. -/
def jsToStringArr : List JVal → String
  | [] => ""
  | [jNull] => ""
  | [v] => jsToString v
  | jNull :: vs => "," ++ jsToStringArr vs
  | v :: vs => jsToString v ++ "," ++ jsToStringArr vs

end

end JVal

open JVal

/-- Interleave a separator between rendered pieces (structural version of
`Array.prototype.join`, kernel-reducible). -/
def joinSep (sep : String) : List String → String
  | [] => ""
  | [x] => x
  | x :: xs => x ++ sep ++ joinSep sep xs

/-- Models `Array.prototype.join(sep)`: elements rendered with `String(...)`,
null rendered as the empty string. -/
def jsJoinWith (sep : String) (l : List JVal) : String :=
  joinSep sep (l.map (fun v => match v with
    | JVal.jNull => ""
    | v => jsToString v))

/-- Property assignment `obj[k] = v` on a plain object: overwrite in place
when the key exists, append otherwise (JS property insertion order). -/
def setKey (fs : List (String × JVal)) (k : String) (v : JVal) : List (String × JVal) :=
  if fs.any (fun p => p.1 = k) then
    fs.map (fun p => if p.1 = k then (k, v) else p)
  else
    fs ++ [(k, v)]

/-- Does the key start with a decimal digit (the `/^(\d)/` test)? -/
def startsWithDigit (k : String) : Bool :=
  match k.data with
  | [] => false
  | c :: _ => c.isDigit

/-- Models `key.replace(/^(\d)/, "d_$1")`: prepend `d_` when the first character
is a decimal digit. -/
def digitKey (k : String) : String :=
  if startsWithDigit k then "d_" ++ k else k

/-- Models `refValue.replace(/^(\d)/, "D_$1")` used by the one-hot expansion. -/
def digitKeyUpper (k : String) : String :=
  if startsWithDigit k then "D_" ++ k else k

/-- Models `key.replace(/\./g, "_")`: the global single-character regex replace
is the per-character map sending `.` to `_`. -/
def replaceDots (k : String) : String :=
  String.mk (k.data.map (fun c => if c = '.' then '_' else c))

/-- Top-level key sanitisation of the flattened decode:
`key.replace(/\./g, "_").replace(/^(\d)/, "d_$1")`. -/
def sanTopFlat (k : String) : String :=
  digitKey (replaceDots k)

/-- The `wrongKeys` sentinel set of `utils.js`. -/
def wrongKeysHas (k : String) : Bool := k = "undefined"

/-- Top-level ignore set per entity (`ignoredKeys[table].top` in
`utils.js`); `none` when the entity has no ignore policy. -/
def ignoredTopList (table : String) : Option (List String) :=
  if table = "participants" then
    some ["query", "unverifiedSeen", "utm_id", "utm_source", "verifiedSeen",
      "firstSurveyCompletedSeen", "569151507", "Module2", "D_726699695_V2", "D_166676176"]
  else if table = "bioSurvey_v1" ∨ table = "cancerScreeningHistorySurvey" ∨
      table = "clinicalBioSurvey_v1" ∨ table = "covid19Survey_v1" ∨
      table = "experience2024" ∨ table = "menstrualSurvey_v1" ∨
      table = "module1_v1" ∨ table = "module1_v2" ∨ table = "module2_v1" ∨
      table = "module2_v2" ∨ table = "module3_v1" ∨ table = "module4_v1" ∨
      table = "mouthwash_v1" ∨ table = "promis_v1" then
    some ["treeJSON", "sha"]
  else
    none

/-- Models `ignoredKeys[table]?.top.has(k)`. -/
def ignoredTopHas (table k : String) : Bool :=
  match ignoredTopList table with
  | some l => l.contains k
  | none => false

/-- Nested ignore set per entity (`ignoredKeys[table].nested`); only the
`participants` entity declares one. -/
def ignoredNestedList (table : String) : Option (List String) :=
  if table = "participants" then
    some ["treeJSON", "COMPLETED", "COMPLETED_TS", "sha", "110349197", "543608829"]
  else
    none

/-- Models `ignoredKeys[table]?.nested?.has(k)`. -/
def ignoredNestedHas (table k : String) : Bool :=
  match ignoredNestedList table with
  | some l => l.contains k
  | none => false

/-- The `mixedStringAndObjectTypes` catalog of `utils.js`. -/
def mixedHas (table k : String) : Bool :=
  if table = "covid19Survey_v1" then k = "D_114280729" ∨ k = "D_749956170"
  else if table = "module2_v2" then k = "D_128705365"
  else if table = "module3_v1" then k = "D_470862706" ∨ k = "D_633553324"
  else if table = "module4_v1" then
    k = "D_135529881" ∨ k = "D_219317801" ∨ k = "D_440093675" ∨
    k = "D_679430807" ∨ k = "D_786253125" ∨ k = "D_968388901"
  else false

/-- Configuration loaded from outside `utils.js`: the table schemas
(`tableSchemas.js`, as per-table field-name lists) and the multi-select
catalog (`arraysToBeFlattened.js`, per table and per flattened path). -/
structure Config where
  schemas : String → Option (List String)
  arrays : String → String → Option (List String)

/-- Models `const [key, value] = Object.entries(item)[0]` in `recoverArray`:
first enumerable entry of a value; destructuring throws a `TypeError` when
there is none (`Object.entries` of a primitive is empty, of null throws). -/
def entriesFirst : JVal → Except String (String × JVal)
  | JVal.jObj ((k, v) :: _) => .ok (k, v)
  | JVal.jArr (v :: _) => .ok ("0", v)
  | JVal.jStr s =>
    match s.data with
    | c :: _ => .ok ("0", JVal.jStr (String.singleton c))
    | [] => .error "TypeError: cannot destructure empty entries"
  | _ => .error "TypeError: cannot destructure empty entries"

/-- One element of `recoverArray`: an optional recovered scalar to push and
an optional warning. -/
def recoverItem (item : JVal) : Except String (Option JVal × Option String) :=
  match entriesFirst item with
  | .error e => .error e
  | .ok (key, value) =>
    if key = "stringValue" ∨ key = "booleanValue" then
      .ok (some value, none)
    else if key = "integerValue" then
      match value with
      | JVal.jNull => .error "TypeError: cannot read toString of null"
      | v => .ok (some (JVal.jStr (jsToString v)), none)
    else
      .ok (none, some ("Unexpected key \"" ++ key ++ "\" found in array."))

/-- Body of `recoverArray` over the already-obtained element list. -/
def recoverArrayList : List JVal → Except String (List JVal × List String)
  | [] => .ok ([], [])
  | item :: rest =>
    match recoverItem item with
    | .error e => .error e
    | .ok (v?, w?) =>
      match recoverArrayList rest with
      | .error e => .error e
      | .ok (vs, ws) => .ok (v?.toList ++ vs, w?.toList ++ ws)

/-- Models `for (const item of valueArray)`: iterating an array yields its
elements, iterating a string yields its characters, anything else throws. -/
def jsIterate : JVal → Except String (List JVal)
  | JVal.jArr l => .ok l
  | JVal.jStr s => .ok (s.data.map (fun c => JVal.jStr (String.singleton c)))
  | _ => .error "TypeError: value is not iterable"

/-- Models `recoverArray(valueArray, ...)` where `valueArray = value[k].values`
may be absent (`undefined`), in which case the `for...of` throws. -/
def recoverArray : Option JVal → Except String (List JVal × List String)
  | none => .error "TypeError: undefined is not iterable"
  | some v =>
    match jsIterate v with
    | .error e => .error e
    | .ok items => recoverArrayList items

/-- Models `flattenArrayToObject(tableName, path, valueArray)`: one flag column
per catalogued option, `"1"` when the option value occurs among the
recovered elements. -/
def flattenArrayToObject (cfg : Config) (table path : String) (valueArray : List JVal) :
    List (String × JVal) :=
  match cfg.arrays table path with
  | none => []
  | some refValueArray =>
    refValueArray.map (fun refValue =>
      (path ++ "_" ++ digitKeyUpper refValue,
        if valueArray.contains (JVal.jStr refValue) then JVal.jStr "1" else JVal.jStr "0"))

/-- Mutable state of the flattened decode while the variant of one popped entry
object is enumerated: the flat result map, the warnings, and the entries
pushed during this enumeration (in push order). -/
structure FlatState where
  flat : List (String × JVal)
  warns : List String
  pushes : List (String × JVal)

/-- Handling of one enumerated key `k` of a popped object value in
`cleanupAndFlattenFields` (the `for (const k in value)` body). -/
def flattenTag (cfg : Config) (table key : String) (st : FlatState) :
    String × JVal → Except String FlatState
  | (k, payload) =>
    if k = "nullValue" ∨ ignoredNestedHas table k then .ok st
    else if k = "stringValue" ∨ k = "booleanValue" then
      if mixedHas table key then
        .ok { st with flat := setKey st.flat (key ++ "_string") payload }
      else
        .ok { st with flat := setKey st.flat key payload }
    else if k = "integerValue" then
      match payload with
      | JVal.jNull => .error "TypeError: cannot read toString of null"
      | v => .ok { st with flat := setKey st.flat key (JVal.jStr (jsToString v)) }
    else if k = "mapValue" then
      match payload with
      | JVal.jNull => .error "TypeError: cannot read fields of null"
      | v =>
        let entries := match jsGet v "fields" with
          | some u => jsForIn u
          | none => []
        .ok { st with pushes :=
          st.pushes ++ entries.map (fun p => (key ++ "_" ++ digitKey p.1, p.2)) }
    else if k = "arrayValue" then
      match payload with
      | JVal.jNull => .error "TypeError: cannot read values of null"
      | v =>
        match recoverArray (jsGet v "values") with
        | .error e => .error e
        | .ok (recoveredArray, ws) =>
          let st := { st with warns := st.warns ++ ws }
          if (cfg.arrays table key).isSome then
            let flat2 := (flattenArrayToObject cfg table key recoveredArray).foldl
              (fun fs p => setKey fs p.1 p.2) st.flat
            .ok { st with flat := flat2 }
          else
            .ok { st with flat := setKey st.flat key (JVal.jArr recoveredArray) }
    else
      .ok { st with pushes := st.pushes ++ [(key ++ "_" ++ digitKey k, payload)] }

/-- The work-list loop of `cleanupAndFlattenFields`.  The stack is a list
whose head is the next entry to pop (`Array.prototype.pop` side); a batch
pushed while one entry is processed is therefore reversed before it is
prepended.  `fuel` bounds the number of loop iterations. -/
def flattenLoop (cfg : Config) (table : String) :
    Nat → List (String × JVal) → List (String × JVal) → List String →
    Except String (List (String × JVal) × List String)
  | _, [], flat, warns => .ok (flat, warns)
  | 0, _ :: _, _, _ => .error "fuel exhausted"
  | fuel + 1, (key, v) :: rest, flat, warns =>
    if jsIsObject v then
      match (jsForIn v).foldlM (flattenTag cfg table key) ⟨flat, warns, []⟩ with
      | .error e => .error e
      | .ok st => flattenLoop cfg table fuel (st.pushes.reverse ++ rest) st.flat st.warns
    else
      flattenLoop cfg table fuel rest (setKey flat key v) warns

/-- The top-level `for (let key in fieldsData)` of the flattened decode:
stack entries (in push order) and the warnings for sentinel keys. -/
def flattenInit (table : String) (fieldsData : JVal) :
    List (String × JVal) × List String :=
  (jsForIn fieldsData).foldl
    (fun (acc : List (String × JVal) × List String) kv =>
      if ignoredTopHas table kv.1 then acc
      else if wrongKeysHas kv.1 then
        (acc.1, acc.2 ++ ["Key \"" ++ kv.1 ++ "\" found in event data "])
      else (acc.1 ++ [(sanTopFlat kv.1, kv.2)], acc.2)) ([], [])

/-- Models `cleanupAndFlattenFields(tableName, fieldsData)`: flattened-mode decode
of a whole document field map.  Non-object input is passed through
unchanged, as in the source. -/
def cleanupAndFlattenFields (cfg : Config) (table : String) (fieldsData : JVal)
    (fuel : Nat) : Except String (JVal × List String) :=
  if jsIsObject fieldsData then
    match flattenLoop cfg table fuel (flattenInit table fieldsData).1.reverse []
        (flattenInit table fieldsData).2 with
    | .error e => .error e
    | .ok (flat, warns) => .ok (JVal.jObj flat, warns)
  else
    .ok (fieldsData, [])

/-- A slot key in the nested decode: a property name or an array index
(the source pushes numeric `index` keys for array elements). -/
inductive NKey where
  | str : String → NKey
  | idx : Nat → NKey
deriving DecidableEq

/-- Rendering of a key in a template literal (`${key}`). -/
def NKey.render : NKey → String
  | NKey.str k => k
  | NKey.idx n => toString n

/-- A pending work-list entry of `cleanupFieldsData`.  The source stores a
reference to the parent container; every container created by the loop is
reachable from the root by a unique key path, so the parent reference is
modelled by that path.  (Aliasing of a superseded container, which a real
event value cannot produce because every protobuf variant object carries a
single tag, is the one behaviour this addressing does not reproduce.) -/
structure NEntry where
  path : List NKey
  key : NKey
  value : JVal

/-- Models `arr[n] = v` on a JS array: overwrite in range, otherwise extend (the
loop assigns each index exactly once, so holes never survive; a hole is
rendered as null). -/
def setNth (l : List JVal) (n : Nat) (v : JVal) : List JVal :=
  if n < l.length then l.set n v
  else l ++ List.replicate (n - l.length) JVal.jNull ++ [v]

/-- Models `parent[key] = v` on the container at the end of a path. -/
def assignKey : JVal → NKey → JVal → JVal
  | JVal.jObj fs, NKey.str k, v => JVal.jObj (setKey fs k v)
  | JVal.jObj fs, NKey.idx n, v => JVal.jObj (setKey fs (toString n) v)
  | JVal.jArr l, NKey.idx n, v => JVal.jArr (setNth l n v)
  | parent, _, _ => parent

/-- Child container lookup while navigating a parent path. -/
def childAt : JVal → NKey → Option JVal
  | JVal.jObj fs, NKey.str k => fs.lookup k
  | JVal.jObj fs, NKey.idx n => fs.lookup (toString n)
  | JVal.jArr l, NKey.idx n => l.get? n
  | _, _ => none

/-- Assignment through a parent path: `root.path[key] = v`.  A dangling
path (possible only through the multi-tag aliasing noted on `NEntry`)
leaves the tree unchanged, matching a write into a detached container. -/
def setIn (root : JVal) : List NKey → NKey → JVal → JVal
  | [], key, v => assignKey root key v
  | k0 :: ps, key, v =>
    match childAt root k0 with
    | some child => assignKey root k0 (setIn child ps key v)
    | none => root

/-- State while the variant of one popped entry object is enumerated in
`cleanupFieldsData`. -/
structure NState where
  res : JVal
  warns : List String
  pushes : List NEntry

/-- Handling of one enumerated key `k` of a popped object value in
`cleanupFieldsData` (the `for (const k in value)` body). -/
def nestedTag (table : String) (path : List NKey) (key : NKey) (st : NState) :
    String × JVal → Except String NState
  | (k, payload) =>
    if k = "nullValue" ∨ ignoredNestedHas table k then .ok st
    else if k = "stringValue" ∨ k = "booleanValue" then
      .ok { st with res := setIn st.res path key payload }
    else if k = "integerValue" then
      match payload with
      | JVal.jNull => .error "TypeError: cannot read toString of null"
      | v => .ok { st with res := setIn st.res path key (JVal.jStr (jsToString v)) }
    else if k = "mapValue" then
      match payload with
      | JVal.jNull => .error "TypeError: cannot read fields of null"
      | v =>
        let entries := match jsGet v "fields" with
          | some u => jsForIn u
          | none => []
        let batch := entries.map (fun p =>
          NEntry.mk (path ++ [key]) (NKey.str (digitKey p.1)) p.2)
        .ok { st with res := setIn st.res path key (JVal.jObj []),
                      pushes := st.pushes ++ batch }
    else if k = "arrayValue" then
      match payload with
      | JVal.jNull => .error "TypeError: cannot read values of null"
      | v =>
        match jsGet v "values" with
        | some (JVal.jArr valueArray) =>
          let batch := valueArray.enum.map (fun p =>
            NEntry.mk (path ++ [key]) (NKey.idx p.1) p.2)
          .ok { st with res := setIn st.res path key (JVal.jArr []),
                        pushes := st.pushes ++ batch }
        | _ =>
          match v with
          | JVal.jObj [] => .ok st
          | JVal.jArr [] => .ok st
          | _ => .ok { st with warns := st.warns ++
              ["Unusual values found in array. key: " ++ key.render ++
               "; value: " ++ jsToString (JVal.jObj [(k, v)])] }
    else
      .ok { st with res := setIn st.res path key (JVal.jObj []),
                    pushes := st.pushes ++
                      [NEntry.mk (path ++ [key]) (NKey.str (digitKey k)) payload] }

/-- The work-list loop of `cleanupFieldsData` (same stack discipline as
`flattenLoop`). -/
def nestedLoop (table : String) :
    Nat → List NEntry → JVal → List String → Except String (JVal × List String)
  | _, [], res, warns => .ok (res, warns)
  | 0, _ :: _, _, _ => .error "fuel exhausted"
  | fuel + 1, e :: rest, res, warns =>
    if jsIsArray e.value then
      match e.value with
      | JVal.jArr l =>
        let res2 := setIn res e.path e.key (JVal.jArr [])
        let batch := l.enum.map (fun p => NEntry.mk (e.path ++ [e.key]) (NKey.idx p.1) p.2)
        nestedLoop table fuel (batch.reverse ++ rest) res2 warns
      | _ => .error "unreachable"
    else if jsIsObject e.value then
      match (jsForIn e.value).foldlM (nestedTag table e.path e.key) ⟨res, warns, []⟩ with
      | .error err => .error err
      | .ok st => nestedLoop table fuel (st.pushes.reverse ++ rest) st.res st.warns
    else
      nestedLoop table fuel rest (setIn res e.path e.key e.value) warns

/-- Models `cleanupFieldsData(tableName, fieldsData)`: nested-mode decode of a
whole document field map.  Non-object input is passed through unchanged. -/
def cleanupFieldsData (table : String) (fieldsData : JVal) (fuel : Nat) :
    Except String (JVal × List String) :=
  if jsIsObject fieldsData then
    let init := (jsForIn fieldsData).foldl
      (fun (acc : List NEntry × List String) kv =>
        if ignoredTopHas table kv.1 then acc
        else if wrongKeysHas kv.1 then
          (acc.1, acc.2 ++ ["Key \"" ++ kv.1 ++ "\" found in event data "])
        else (acc.1 ++ [NEntry.mk [] (NKey.str (digitKey kv.1)) kv.2], acc.2)) ([], [])
    nestedLoop table fuel init.1.reverse (JVal.jObj []) init.2
  else
    .ok (fieldsData, [])

/-- Lexicographic comparison of character lists (structural model of the
default string ordering used by `Array.prototype.sort` and by the
string comparison of the warehouse). -/
def charListLt : List Char → List Char → Bool
  | [], [] => false
  | [], _ :: _ => true
  | _ :: _, [] => false
  | a :: as, b :: bs => if a < b then true else if b < a then false else charListLt as bs

/-- Models `a < b` on strings. -/
def strLt (a b : String) : Bool := charListLt a.data b.data

/-- Stable insertion of a string into a sorted list (`Array.prototype.sort`
with the default string comparator). -/
def insertSorted (x : String) : List String → List String
  | [] => [x]
  | y :: ys => if strLt y x then y :: insertSorted x ys else x :: y :: ys

/-- Models `warningMsgArray.sort()`. -/
def sortStrings (l : List String) : List String := l.foldr insertSorted []

/-- Models `warningMsgArray.sort().join("; ")`. -/
def sortedJoin (l : List String) : String := joinSep "; " (sortStrings l)

/-- The aggregated extra-field message of `streamUpdatesToBuffer`. -/
def extraMsg (extras : List String) : String :=
  "Extra " ++ toString extras.length ++ " field(s) found in data: " ++
    joinSep ", " extras

/-- One `saveWarning` call (table, docId, payload handed to the sink, and
the joined message). -/
structure WarningCall where
  table : String
  docId : String
  data : JVal
  msg : String

/-- The updateMask short-circuit shared by `streamUpdatesToBuffer` and
`streamBoxesUpdatesToBuffer`: when an updateMask is present and lists
fewer changed paths than the top-level ignore-set size of the entity, and every
changed path is ignored, the event is a no-op. -/
def updateMaskAllIgnored (table : String) (mask : Option (List String)) : Bool :=
  match mask, ignoredTopList table with
  | some paths, some ign =>
    if paths.length < ign.dedup.length then
      paths.countP (fun p => ign.contains p) = paths.length
    else false
  | _, _ => false

/-- Models `Math.round(nanos / 1e6)` for the protobuf timestamp (floor of
x + 1/2, as JS rounding does). -/
def jsRoundDivMillion (nanos : Int) : Int := Int.ediv (2 * nanos + 1000000) 2000000

/-- Models `createTime.seconds * 1000 + Math.round(createTime.nanos / 1e6)`. -/
def protoMs (seconds nanos : Int) : Int := seconds * 1000 + jsRoundDivMillion nanos

/-- Models `new Date(ms).toISOString()`, modelled as a canonical rendering of the
epoch-millisecond count (the concrete ISO-8601 text is irrelevant to every
property below; the rendering is injective in the millisecond value). -/
def isoOfMs (ms : Int) : String := "ms:" ++ toString ms

/-- Models `delete flattenedData[fieldName]` for every extra field.  Deleting an
index property of a primitive string throws in strict mode; the decode
result is otherwise a plain object (or a primitive passed through). -/
def deleteExtraKeys (flat : JVal) (extras : List String) : Except String JVal :=
  match flat with
  | JVal.jObj fs =>
    .ok (JVal.jObj (extras.foldl (fun fs k => fs.filter (fun p => p.1 ≠ k)) fs))
  | JVal.jStr s =>
    if extras.isEmpty then .ok (JVal.jStr s)
    else .error "TypeError: cannot delete property of a string"
  | v => .ok v

/-- Object spread `{...base, ...v}` restricted to the second operand:
assign every own enumerable entry of `v` onto `base`. -/
def spreadInto (base : List (String × JVal)) (v : JVal) : List (String × JVal) :=
  (jsForIn v).foldl (fun b kv => setKey b kv.1 kv.2) base

/-- What `streamUpdatesToBuffer` hands on: the row given to the buffer
insert (if any) and the `saveWarning` calls it made. -/
structure StreamOutcome where
  inserted : Option (List (String × JVal))
  warningCalls : List WarningCall

/-- Models `fieldNamesInData.difference(fieldNamesInSchema)` over the keys of
the flattened decode result. -/
def streamExtras (schemaNames : List String) (flat : JVal) : List String :=
  ((jsForIn flat).map Prod.fst).filter (fun k => !(schemaNames.contains k))

/-- The `saveWarning` calls made by `streamUpdatesToBuffer`: exactly one
call, carrying the single aggregated extra-field message appended to the
decode warnings, when extra fields exist; none otherwise. -/
def streamWarnCalls (table docId : String) (schemaNames : List String)
    (flat : JVal) (warns : List String) : List WarningCall :=
  if (streamExtras schemaNames flat).isEmpty then []
  else [⟨table, docId, flat,
    sortedJoin (warns ++ [extraMsg (streamExtras schemaNames flat)])⟩]

/-- Body of `streamUpdatesToBuffer` after the schema lookup: updateMask
short-circuit, flattened decode, schema projection with one aggregated
extra-field warning, timestamp derivation, buffer insert. -/
def streamUpdatesBody (cfg : Config) (table docId : String)
    (schemaNames : List String) (mask : Option (List String)) (fields : JVal)
    (createSec createNanos updateSec updateNanos : Int) (fuel : Nat) :
    Except String StreamOutcome :=
  if updateMaskAllIgnored table mask then .ok ⟨none, []⟩
  else
    match cleanupAndFlattenFields cfg table fields fuel with
    | .error e => .error e
    | .ok (flat, warns) =>
      if jsIsNull flat then .error "TypeError: cannot convert null to object"
      else
        match deleteExtraKeys flat (streamExtras schemaNames flat) with
        | .error e => .error e
        | .ok flat2 =>
          .ok ⟨some (spreadInto
              [("docId", JVal.jStr docId),
               ("createdAt", JVal.jStr (isoOfMs (protoMs createSec createNanos))),
               ("updatedAt", JVal.jStr (isoOfMs (protoMs updateSec updateNanos)))] flat2),
            streamWarnCalls table docId schemaNames flat warns⟩

/-- Models `streamUpdatesToBuffer(tableName, docId, decodedData)` for the
ordinary (non-boxes) entities. -/
def streamUpdatesToBuffer (cfg : Config) (table docId : String)
    (mask : Option (List String)) (fields : JVal)
    (createSec createNanos updateSec updateNanos : Int) (fuel : Nat) :
    Except String StreamOutcome :=
  match cfg.schemas table with
  | none => .ok ⟨none, []⟩
  | some schemaNames =>
    streamUpdatesBody cfg table docId schemaNames mask fields
      createSec createNanos updateSec updateNanos fuel

/-- The fifteen bag-slot CIDs of a container document (`bagCidArray`). -/
def bagCidArray : List String :=
  ["d_650224161", "d_136341211", "d_503046679", "d_313341808", "d_668816010",
   "d_754614551", "d_174264982", "d_550020510", "d_673090642", "d_492881559",
   "d_536728814", "d_309413330", "d_357218702", "d_945294744", "d_741697447"]

/-- The seventeen container-level common keys (`boxRowCommonKeyArray`). -/
def boxRowCommonKeyArray : List String :=
  ["d_672863981", "d_560975149", "d_842312685", "d_132929440", "d_789843387",
   "d_555611076", "d_145971562", "d_959708259", "d_948887825", "d_666553960",
   "d_885486943", "d_656548982", "d_105891443", "d_238268405", "d_870456401",
   "d_926457119", "d_333524031"]

/-- Truthiness of a possibly-undefined value. -/
def truthyOpt : Option JVal → Bool
  | none => false
  | some v => jsTruthy v

/-- Models `a || b` on possibly-undefined values: the first operand when truthy,
otherwise the second. -/
def jsOrOpt (a b : Option JVal) : Option JVal := if truthyOpt a then a else b

/-- Models `value?.length` as a number: arrays and strings report their length;
a plain object reports its own `length` property if it is a number. -/
def jsLenGtZero : Option JVal → Bool
  | some (JVal.jArr l) => 0 < l.length
  | some (JVal.jStr s) => 0 < s.length
  | some (JVal.jObj fs) =>
    match fs.lookup "length" with
    | some (JVal.jNum n) => 0 < n
    | _ => false
  | _ => false

/-- Models `boxData[bagCid]?.d_234868461?.length > 0`. -/
def bagHasTube (boxData : JVal) (bagCid : String) : Bool :=
  match jsGet boxData bagCid with
  | none => false
  | some bag => jsLenGtZero (jsGet bag "d_234868461")

/-- Bag type resolution: the three mutually exclusive indicator fields in
fixed priority order. -/
def bagTypeOf (bag : JVal) : String :=
  if truthyOpt (jsGet bag "d_787237543") then "Blood/Urine"
  else if truthyOpt (jsGet bag "d_223999569") then "Mouth wash"
  else if truthyOpt (jsGet bag "d_522094118") then "Orphan bag"
  else ""

/-- A fan-out item row: key/value pairs where a value may be `undefined`
(`none`), exactly as a JS object whose property was assigned `undefined`. -/
abbrev BoxRow := List (String × Option JVal)

/-- One common-field value of `rowCommonData`: an array is joined with
`";"`, anything else (including `undefined`) is copied verbatim. -/
def boxCommonValue : Option JVal → Option JVal
  | some (JVal.jArr l) => some (JVal.jStr (jsJoinWith ";" l))
  | v => v

/-- The bag-level tail of one item row. -/
def bagTail (bag : JVal) (tubeID : JVal) : BoxRow :=
  [("bagID", jsOrOpt (jsGet bag "d_787237543")
      (jsOrOpt (jsGet bag "d_223999569") (jsGet bag "d_522094118"))),
   ("bagType", some (JVal.jStr (bagTypeOf bag))),
   ("d_469819603", jsOrOpt (jsGet bag "d_469819603") (some (JVal.jStr ""))),
   ("d_255283733", jsGet bag "d_255283733"),
   ("tubeID", some tubeID)]

/-- The bag loop of `flattenBoxData`. -/
def bagRows (boxData : JVal) (rowCommon : BoxRow) :
    List String → List BoxRow → Except String (List BoxRow)
  | [], acc => .ok acc
  | bagCid :: rest, acc =>
    if bagHasTube boxData bagCid then
      match jsGet boxData bagCid with
      | some bag =>
        match jsGet bag "d_234868461" with
        | some tubesVal =>
          match jsIterate tubesVal with
          | .error e => .error e
          | .ok tubes =>
            bagRows boxData rowCommon rest
              (acc ++ tubes.map (fun tubeID => rowCommon ++ bagTail bag tubeID))
        | none => .error "unreachable: tube list vanished"
      | none => .error "unreachable: bag vanished"
    else
      bagRows boxData rowCommon rest acc

/-- Models `flattenBoxData(boxData)`: one item row per tube identifier across all
populated bag slots, each replicating the container-level common fields. -/
def flattenBoxData (boxData : JVal) : Except String (List BoxRow) :=
  match boxData with
  | JVal.jNull => .error "TypeError: cannot read properties of null"
  | boxData =>
    let rowCommon : BoxRow :=
      boxRowCommonKeyArray.map (fun key => (key, boxCommonValue (jsGet boxData key)))
    bagRows boxData rowCommon bagCidArray []

/-- Models `{docId, createdAt, updatedAt, ...rowObj}` for a fan-out row (the
spread keys of the row are disjoint from the three meta keys, see
`flattenBoxData_keys`). -/
def addBoxMeta (docId createdAt updatedAt : String) (row : BoxRow) : BoxRow :=
  ("docId", some (JVal.jStr docId)) :: ("createdAt", some (JVal.jStr createdAt)) ::
    ("updatedAt", some (JVal.jStr updatedAt)) :: row

/-- What `streamBoxesUpdatesToBuffer` hands on. -/
structure BoxOutcome where
  inserted : List BoxRow
  warningCalls : List WarningCall

/-- The `saveWarning` call of `streamBoxesUpdatesToBuffer`, made right
after the nested decode (so in the source it still happens when the
subsequent fan-out throws; the `Except`-model drops it on that error
path, which no property below exercises). -/
def boxWarnCalls (table docId : String) (boxData : JVal) (warns : List String) :
    List WarningCall :=
  if warns.isEmpty then [] else [⟨table, docId, boxData, sortedJoin warns⟩]

/-- Body of `streamBoxesUpdatesToBuffer` after the schema existence
check (which is the only use the function makes of the configuration):
updateMask short-circuit, nested decode, fan-out, one buffer insert per
item row — with no projection of the rows against the entity schema. -/
def streamBoxesBody (table docId : String)
    (mask : Option (List String)) (fields : JVal)
    (createSec createNanos updateSec updateNanos : Int) (fuel : Nat) :
    Except String BoxOutcome :=
  if updateMaskAllIgnored table mask then .ok ⟨[], []⟩
  else
    match cleanupFieldsData table fields fuel with
    | .error e => .error e
    | .ok (boxData, warns) =>
      match flattenBoxData boxData with
      | .error e => .error e
      | .ok rowObjArray =>
        if rowObjArray.isEmpty then .ok ⟨[], boxWarnCalls table docId boxData warns⟩
        else
          .ok ⟨rowObjArray.map (addBoxMeta docId (isoOfMs (protoMs createSec createNanos))
              (isoOfMs (protoMs updateSec updateNanos))),
            boxWarnCalls table docId boxData warns⟩

/-- Models `streamBoxesUpdatesToBuffer(tableName, docId, decodedData)`. -/
def streamBoxesUpdatesToBuffer (cfg : Config) (table docId : String)
    (mask : Option (List String)) (fields : JVal)
    (createSec createNanos updateSec updateNanos : Int) (fuel : Nat) :
    Except String BoxOutcome :=
  match cfg.schemas table with
  | none => .ok ⟨[], []⟩
  | some _ =>
    streamBoxesBody table docId mask fields createSec createNanos updateSec updateNanos fuel

/-- The tombstone row built by `streamDelete(tableName, docId)`:
`{docId, updatedAt: new Date().toISOString(), isDeleted: true}` — the
`updatedAt` watermark is the ambient wall clock `nowIso`, not a value
taken from the change event. -/
def streamDeleteRow (docId nowIso : String) : List (String × JVal) :=
  [("docId", JVal.jStr docId), ("updatedAt", JVal.jStr nowIso),
   ("isDeleted", JVal.jBool true)]

/-- A protobuf timestamp as decoded with `{longs: Number}`. -/
structure TsProto where
  seconds : Int
  nanos : Int
deriving DecidableEq

/-- The document snapshot inside a decoded change event. -/
structure DocSnapshot where
  name : String
  fields : JVal
  createTime : TsProto
  updateTime : TsProto

/-- A decoded Firestore change event (`DocumentEventData.toObject`):
absence of `value` signals deletion. -/
structure ChangeEvent where
  value : Option DocSnapshot
  oldValue : Option DocSnapshot
  updateMask : Option (List String)

/-- Models `decodedData.value?.name || decodedData.oldValue.name`. -/
def eventName (ev : ChangeEvent) : Except String String :=
  let fromOld : Except String String :=
    match ev.oldValue with
    | none => .error "TypeError: cannot read name of undefined"
    | some o => .ok o.name
  match ev.value with
  | some v => if v.name = "" then fromOld else .ok v.name
  | none => fromOld

/-- Models `String.prototype.split("/")` (structural). -/
def splitSlashAux : List Char → List Char → List String
  | [], acc => [String.mk acc.reverse]
  | c :: cs, acc =>
    if c = '/' then String.mk acc.reverse :: splitSlashAux cs []
    else splitSlashAux cs (c :: acc)

/-- Models `name.split("/")`. -/
def jsSplitSlash (name : String) : List String := splitSlashAux name.data []

/-- Models `name.split("/").slice(-2)` destructured as `[tableName, docId]`. -/
def lastTwoSegments (name : String) : Option (String × String) :=
  match (jsSplitSlash name).reverse with
  | docId :: table :: _ => some (table, docId)
  | _ => none

/-- The deletion path of the `streamFirestoreUpdates` event handler: when
the event carries no `value`, the handler streams a tombstone built from
the ambient wall clock, and nothing from the event beyond the collection
name and the document id.  Returns the target table and the tombstone row,
or `none` when the collection is not streamed or the event is not a
deletion. -/
def handlerDeletePath (collectionNames : List String) (nowIso : String)
    (ev : ChangeEvent) : Except String (Option (String × List (String × JVal))) :=
  match eventName ev with
  | .error e => .error e
  | .ok name =>
    match lastTwoSegments name with
    | none => .error "malformed document name"
    | some (table, docId) =>
      if !(collectionNames.contains table) then .ok none
      else
        match ev.value with
        | none => .ok (some (table, streamDeleteRow docId nowIso))
        | some _ => .ok none

/-- Models `tableNameArray` from `settings.js`. -/
def tableNameArray : List String :=
  ["bioSurvey_v1", "biospecimen", "birthdayCard", "boxes", "cancerOccurrence",
   "cancerScreeningHistorySurvey", "clinicalBioSurvey_v1", "covid19Survey_v1",
   "experience2024", "kitAssembly", "menstrualSurvey_v1", "module1_v1",
   "module1_v2", "module2_v1", "module2_v2", "module3_v1", "module4_v1",
   "mouthwash_v1", "notifications", "participants", "promis_v1"]

/-- A staged buffer row: schema columns (docId, updatedAt watermark and
the remaining field values) plus the buffer-only `isDeleted` marker. -/
structure StagedRow where
  docId : String
  updatedAt : String
  isDeleted : Bool
  fields : List (String × JVal)

/-- A converged target-table row (target tables carry no `isDeleted`). -/
structure TargetRow where
  docId : String
  updatedAt : String
  fields : List (String × JVal)

/-- Models `UPDATE SET`/`INSERT` over the full schema field list copies every
column of the staged row into the target row. -/
def toTargetRow (s : StagedRow) : TargetRow := ⟨s.docId, s.updatedAt, s.fields⟩

/-- Models `ROW_NUMBER() OVER (PARTITION BY docId ORDER BY updatedAt DESC)`
keeps, per docId, a row with maximal `updatedAt`; on a timestamp tie the
choice made by the window function is arbitrary, modelled as the earlier buffered
row. -/
def laterOf (a b : StagedRow) : StagedRow := if strLt a.updatedAt b.updatedAt then b else a

/-- The `rn = 1` representative for one docId. -/
def latestFor (d : String) (buffer : List StagedRow) : Option StagedRow :=
  match buffer.filter (fun r => r.docId = d) with
  | [] => none
  | x :: xs => some (xs.foldl laterOf x)

/-- The deduplicated source `S` of the merge: one latest row per docId. -/
def latestPerDoc (buffer : List StagedRow) : List StagedRow :=
  ((buffer.map (fun r => r.docId)).dedup).filterMap (fun d => latestFor d buffer)

/-- The `MERGE` statement of `syncUpdates`: per matched target row, delete
on a tombstone, overwrite when the staged watermark is strictly newer,
keep otherwise; insert unmatched non-tombstone staged rows. -/
def mergeStaged (target : List TargetRow) (S : List StagedRow) : List TargetRow :=
  (target.filterMap (fun t =>
    match S.find? (fun s => s.docId = t.docId) with
    | none => some t
    | some s =>
      if s.isDeleted then none
      else if strLt t.updatedAt s.updatedAt then some (toTargetRow s)
      else some t)) ++
  (S.filter (fun s =>
    !s.isDeleted && target.all (fun t => t.docId ≠ s.docId))).map toTargetRow

/-- Models `deleteOldRecordsFromBuffer`: staged rows older than the retention
cutoff are purged. -/
def purgeOldBuffer (buffer : List StagedRow) (cutoff : String) : List StagedRow :=
  buffer.filter (fun r => !strLt r.updatedAt cutoff)

/-- Models `syncUpdates(tableName)`: merge the latest staged snapshot into the
target table, then purge stale buffer rows. -/
def syncUpdates (target : List TargetRow) (buffer : List StagedRow)
    (cutoff : String) : List TargetRow × List StagedRow :=
  (mergeStaged target (latestPerDoc buffer), purgeOldBuffer buffer cutoff)

/-- Outcomes of the warehouse statements a reconciliation task issues,
per table (the query oracle). -/
structure SyncEnv where
  mergeQ : String → Except String Unit
  purgeQ : String → Except String Unit
  boxMoveOutQ : String → Except String Unit
  boxDocDelQ : String → Except String Unit

/-- One `saveError` record. -/
structure ErrorCall where
  targetTable : String
  operation : String
  message : String
deriving DecidableEq

/-- Models `deleteOldRecordsFromBuffer` catches its own query failure and records
it with operation `DELETE`; it never throws. -/
def deleteOldTask (env : SyncEnv) (table : String) : List ErrorCall :=
  match env.purgeQ table with
  | .ok _ => []
  | .error e => [⟨table, "DELETE", e⟩]

/-- Models `syncUpdates` as a task: a merge failure is caught and recorded with
operation `MERGE`; the task itself never rejects. -/
def syncUpdatesTask (env : SyncEnv) (table : String) : List ErrorCall :=
  match env.mergeQ table with
  | .error e => [⟨table, "MERGE", e⟩]
  | .ok _ => deleteOldTask env table

/-- Models `syncBoxesUpdates` as a task: the three sequential statements share
one catch recording `MERGE`; the purge records its own failures. -/
def syncBoxesUpdatesTask (env : SyncEnv) (table : String) : List ErrorCall :=
  match env.mergeQ table with
  | .error e => [⟨table, "MERGE", e⟩]
  | .ok _ =>
    match env.boxMoveOutQ table with
    | .error e => [⟨table, "MERGE", e⟩]
    | .ok _ =>
      match env.boxDocDelQ table with
      | .error e => [⟨table, "MERGE", e⟩]
      | .ok _ => deleteOldTask env table

/-- The per-entity reconciliation task dispatch of
`syncBatchedUpdatesToTables`. -/
def syncEntityTask (env : SyncEnv) (table : String) : List ErrorCall :=
  if table = "boxes" then syncBoxesUpdatesTask env table else syncUpdatesTask env table

/-- Models `syncBatchedUpdatesToTables()`: one task per known entity, all allowed
to settle (`Promise.allSettled`); each task is total (it catches its own
failures), so the settled list carries the recorded errors of every entity. -/
def syncBatchedUpdatesToTables (env : SyncEnv) : List (String × List ErrorCall) :=
  tableNameArray.map (fun t => (t, syncEntityTask env t))

/-- The HTTP trigger `functions.http("syncBatchedUpdatesToTables", ...)`:
awaits the settled tasks and answers status 200 unconditionally. -/
def syncBatchedHttpHandler (env : SyncEnv) : Nat × List (String × List ErrorCall) :=
  (200, syncBatchedUpdatesToTables env)

/-- A configuration with empty schema registry and empty multi-select
catalog, for inputs whose claims do not consult them. -/
def cfgEmpty : Config := ⟨fun _ => none, fun _ _ => none⟩

/-- Document whose single field is an un-cataloged array of two string
variants. -/
def uncatalogedArrayDoc : JVal :=
  JVal.jObj [("f1", JVal.jObj [("arrayValue", JVal.jObj [("values",
    JVal.jArr [JVal.jObj [("stringValue", JVal.jStr "a")],
               JVal.jObj [("stringValue", JVal.jStr "b")]])])])]

/-- Document with an empty-array field (`{arrayValue: {}}`, no element
list) next to an ordinary string field. -/
def emptyArrayDoc : JVal :=
  JVal.jObj [("f1", JVal.jObj [("arrayValue", JVal.jObj [])]),
             ("f2", JVal.jObj [("stringValue", JVal.jStr "x")])]

/-- Document with a nested map whose inner key contains a literal dot. -/
def nestedDotKeyDoc : JVal :=
  JVal.jObj [("m", JVal.jObj [("mapValue", JVal.jObj [("fields",
    JVal.jObj [("a.b", JVal.jObj [("stringValue", JVal.jStr "x")])])])])]

/-- Concrete container document: one common field set, two populated bag
slots with two tubes each (first bag Blood/Urine, second Mouth wash). -/
def exBox : JVal := JVal.jObj [
  ("d_672863981", JVal.jStr "site"),
  ("d_650224161", JVal.jObj [("d_234868461", JVal.jArr [JVal.jStr "T1", JVal.jStr "T2"]),
    ("d_787237543", JVal.jStr "BAG1"), ("d_469819603", JVal.jStr "S1"),
    ("d_255283733", JVal.jStr "V1")]),
  ("d_136341211", JVal.jObj [("d_234868461", JVal.jArr [JVal.jStr "T3", JVal.jStr "T4"]),
    ("d_223999569", JVal.jStr "BAG2"), ("d_255283733", JVal.jStr "V2")])]

/-- The replicated common-field block of every row of `exBox`. -/
def exCommon : BoxRow :=
  boxRowCommonKeyArray.map (fun k =>
    (k, if k = "d_672863981" then some (JVal.jStr "site") else none))

/-- One expected item row of `exBox`. -/
def exRow (bagID bagType aux v255 tube : String) : BoxRow :=
  exCommon ++
  [("bagID", some (JVal.jStr bagID)), ("bagType", some (JVal.jStr bagType)),
   ("d_469819603", some (JVal.jStr aux)), ("d_255283733", some (JVal.jStr v255)),
   ("tubeID", some (JVal.jStr tube))]

/-- Key list of every row handed to the buffer insert for the fan-out
entity. -/
def boxInsertedKeys : List String :=
  "docId" :: "createdAt" :: "updatedAt" :: boxRowCommonKeyArray ++
    ["bagID", "bagType", "d_469819603", "d_255283733", "tubeID"]

theorem ignoredNestedHas_of_ne (table k : String)
    (h : k ∉ ["treeJSON", "COMPLETED", "COMPLETED_TS", "sha", "110349197", "543608829"]) :
    ignoredNestedHas table k = false := by
  unfold ignoredNestedHas ignoredNestedList
  by_cases hp : table = "participants"
  · simp only [hp, if_pos rfl]
    simpa using h
  · simp [hp]

/-- Claim C3, counterexample: for an entity with no multi-select catalog
entry, a single un-cataloged array field is not dropped and produces no
warning — flattened decode stores the recovered scalar list under the
path key of the field. -/
theorem claim_C3_counterexample :
    cleanupAndFlattenFields cfgEmpty "module1_v1" uncatalogedArrayDoc 10 =
      .ok (JVal.jObj [("f1", JVal.jArr [JVal.jStr "a", JVal.jStr "b"])], []) := rfl

/-- Claim C4 (code bug): nested-mode decode silently drops the
empty-array field, but flattened-mode decode of the same document throws
(`recoverArray` iterates the absent `values` list), so the event dies
instead of the field being dropped. -/
theorem claim_C4_code_divergence :
    cleanupFieldsData "module1_v1" emptyArrayDoc 10 =
      .ok (JVal.jObj [("f2", JVal.jStr "x")], []) ∧
    cleanupAndFlattenFields cfgEmpty "module1_v1" emptyArrayDoc 10 =
      .error "TypeError: undefined is not iterable" := ⟨rfl, rfl⟩

/-- Claim C5, counterexample: a literal dot in a nested map key survives
into the flattened output key (`m_a.b`), i.e. dot replacement is not
applied below the top level. -/
theorem claim_C5_counterexample :
    cleanupAndFlattenFields cfgEmpty "biospecimen" nestedDotKeyDoc 10 =
      .ok (JVal.jObj [("m_a.b", JVal.jStr "x")], []) := rfl

/-- Claim C7: an event whose updateMask lists fewer changed paths than
the top-level ignore-set size of the entity, all of them ignored, is a no-op:
`streamUpdatesToBuffer` inserts nothing and records no warning. -/
theorem claim_C7_mask_noop (cfg : Config) (table docId : String)
    (paths : List String) (fields : JVal)
    (cs cn us un : Int) (fuel : Nat) (ign : List String)
    (hign : ignoredTopList table = some ign)
    (hlen : paths.length < ign.dedup.length)
    (hall : ∀ p ∈ paths, ign.contains p) :
    streamUpdatesToBuffer cfg table docId (some paths) fields cs cn us un fuel =
      .ok ⟨none, []⟩ := by
  have hguard : updateMaskAllIgnored table (some paths) = true := by
    unfold updateMaskAllIgnored
    rw [hign]
    simp only [hlen, if_true]
    exact decide_eq_true (List.countP_eq_length.mpr (fun p hp => by
      simpa using hall p hp))
  unfold streamUpdatesToBuffer
  cases cfg.schemas table with
  | none => rfl
  | some sch =>
    unfold streamUpdatesBody
    simp [hguard]

theorem claim_C7_witness :
    streamUpdatesToBuffer cfgEmpty "participants" "doc1" (some ["query", "utm_id"])
      (JVal.jObj [("state", JVal.jObj [("stringValue", JVal.jStr "s")])])
      0 0 0 0 10 = .ok ⟨none, []⟩ :=
  claim_C7_mask_noop cfgEmpty "participants" "doc1" ["query", "utm_id"] _ 0 0 0 0 10 _
    rfl (by decide) (by decide)

/-- Claim C9: the deletion path of the event handler builds its tombstone
from the ambient wall clock only — two deletion events for the same
document name (with arbitrary, possibly different, old-value snapshots
and timestamps) produce the same tombstone, whose `updatedAt` is the wall
clock value. -/
theorem claim_C9_tombstone (names : List String) (nowIso : String)
    (ev₁ ev₂ : ChangeEvent) (o₁ o₂ : DocSnapshot)
    (h₁ : ev₁.value = none) (h₂ : ev₂.value = none)
    (ho₁ : ev₁.oldValue = some o₁) (ho₂ : ev₂.oldValue = some o₂)
    (hname : o₁.name = o₂.name) :
    handlerDeletePath names nowIso ev₁ = handlerDeletePath names nowIso ev₂ ∧
    (∀ table row, handlerDeletePath names nowIso ev₁ = .ok (some (table, row)) →
      row.lookup "updatedAt" = some (JVal.jStr nowIso)) := by
  have hev₁ : eventName ev₁ = .ok o₁.name := by
    unfold eventName; rw [h₁, ho₁]
  have hev₂ : eventName ev₂ = .ok o₂.name := by
    unfold eventName; rw [h₂, ho₂]
  constructor
  · unfold handlerDeletePath
    rw [hev₁, hev₂, hname, h₁, h₂]
  · intro table row hrun
    unfold handlerDeletePath at hrun
    rw [hev₁] at hrun
    simp only [] at hrun
    cases hseg : lastTwoSegments o₁.name with
    | none => rw [hseg] at hrun; exact absurd hrun (by simp)
    | some td =>
      rw [hseg] at hrun
      simp only [h₁] at hrun
      by_cases hc : names.contains td.1 = true
      · rw [hc] at hrun
        simp only [Bool.not_true] at hrun
        rw [if_neg (by simp)] at hrun
        simp only [Except.ok.injEq, Option.some.injEq, Prod.mk.injEq] at hrun
        rw [← hrun.2]
        rfl
      · rw [Bool.not_eq_true] at hc
        rw [hc] at hrun
        simp at hrun

theorem claim_C9_witness :
    handlerDeletePath tableNameArray "now0"
      ⟨none, some ⟨"p/d/participants/doc9", JVal.jObj [], ⟨1, 0⟩, ⟨2, 0⟩⟩, none⟩ =
      handlerDeletePath tableNameArray "now0"
      ⟨none, some ⟨"p/d/participants/doc9", JVal.jNull, ⟨7, 7⟩, ⟨9, 9⟩⟩, none⟩ ∧
    (∀ table row, handlerDeletePath tableNameArray "now0"
      ⟨none, some ⟨"p/d/participants/doc9", JVal.jObj [], ⟨1, 0⟩, ⟨2, 0⟩⟩, none⟩ =
        .ok (some (table, row)) →
      row.lookup "updatedAt" = some (JVal.jStr "now0")) :=
  claim_C9_tombstone tableNameArray "now0" _ _ _ _ rfl rfl rfl rfl rfl

theorem lookup_map_self {β : Type} (l : List String) (f : String → β) (t : String)
    (ht : t ∈ l) : (l.map (fun x => (x, f x))).lookup t = some (f t) := by
  induction l with
  | nil => cases ht
  | cons x xs ih =>
    by_cases hx : t = x
    · subst hx
      simp [List.lookup]
    · rcases List.mem_cons.mp ht with h1 | hxs
      · exact absurd h1 hx
      · simpa [List.lookup, BEq.beq, hx] using ih hxs

/-- Claim C8: the reconciliation trigger answers HTTP 200 for every query
outcome; the task of every known entity settles and its error records appear in
the settled list; a failing merge for an entity is recorded through the
error sink with operation MERGE; and the settled outcome of an entity depends
only on the query outcomes of that entity, so a failure in one entity
neither cancels nor blocks another. -/
theorem claim_C8_trigger (env env2 : SyncEnv) (t : String)
    (ht : t ∈ tableNameArray)
    (hm : env2.mergeQ t = env.mergeQ t) (hp : env2.purgeQ t = env.purgeQ t)
    (hb1 : env2.boxMoveOutQ t = env.boxMoveOutQ t)
    (hb2 : env2.boxDocDelQ t = env.boxDocDelQ t) :
    (syncBatchedHttpHandler env).1 = 200 ∧
    (syncBatchedHttpHandler env).2.lookup t = some (syncEntityTask env t) ∧
    (∀ e, env.mergeQ t = .error e → syncEntityTask env t = [⟨t, "MERGE", e⟩]) ∧
    (syncBatchedHttpHandler env2).2.lookup t = (syncBatchedHttpHandler env).2.lookup t := by
  have htask : syncEntityTask env2 t = syncEntityTask env t := by
    unfold syncEntityTask syncBoxesUpdatesTask syncUpdatesTask deleteOldTask
    rw [hm, hp, hb1, hb2]
  refine ⟨rfl, ?_, ?_, ?_⟩
  · exact lookup_map_self tableNameArray (syncEntityTask env) t ht
  · intro e he
    unfold syncEntityTask syncBoxesUpdatesTask syncUpdatesTask
    rw [he]
    by_cases hbox : t = "boxes" <;> simp [hbox]
  · show (syncBatchedUpdatesToTables env2).lookup t = (syncBatchedUpdatesToTables env).lookup t
    unfold syncBatchedUpdatesToTables
    rw [lookup_map_self tableNameArray (syncEntityTask env2) t ht,
      lookup_map_self tableNameArray (syncEntityTask env) t ht, htask]

theorem claim_C8_witness :
    ((syncBatchedHttpHandler ⟨fun n => if n = "participants" then .error "merge down" else .ok (),
        fun _ => .ok (), fun _ => .ok (), fun _ => .ok ()⟩).1 = 200 ∧
      (syncBatchedHttpHandler ⟨fun n => if n = "participants" then .error "merge down" else .ok (),
        fun _ => .ok (), fun _ => .ok (), fun _ => .ok ()⟩).2.lookup "module1_v1" =
        some (syncEntityTask ⟨fun n => if n = "participants" then .error "merge down" else .ok (),
          fun _ => .ok (), fun _ => .ok (), fun _ => .ok ()⟩ "module1_v1") ∧
      (∀ e, (if "module1_v1" = "participants" then Except.error "merge down" else Except.ok ()) = .error e →
        syncEntityTask ⟨fun n => if n = "participants" then .error "merge down" else .ok (),
          fun _ => .ok (), fun _ => .ok (), fun _ => .ok ()⟩ "module1_v1" = [⟨"module1_v1", "MERGE", e⟩]) ∧
      ((syncBatchedHttpHandler ⟨fun _ => .ok (), fun _ => .ok (), fun _ => .ok (), fun _ => .ok ()⟩).2.lookup "module1_v1" =
        (syncBatchedHttpHandler ⟨fun n => if n = "participants" then .error "merge down" else .ok (),
          fun _ => .ok (), fun _ => .ok (), fun _ => .ok ()⟩).2.lookup "module1_v1")) :=
  claim_C8_trigger
    ⟨fun n => if n = "participants" then .error "merge down" else .ok (),
      fun _ => .ok (), fun _ => .ok (), fun _ => .ok ()⟩
    ⟨fun _ => .ok (), fun _ => .ok (), fun _ => .ok (), fun _ => .ok ()⟩
    "module1_v1" (by decide) rfl rfl rfl rfl

theorem filterMap_of_forall_some {α : Type} (l : List α) (f : α → Option α)
    (h : ∀ a ∈ l, f a = some a) : l.filterMap f = l := by
  induction l with
  | nil => rfl
  | cons x xs ih =>
    rw [List.filterMap_cons, h x (by simp)]
    rw [ih (fun a ha => h a (by simp [ha]))]

theorem charListLt_asymm (a b : List Char) (h : charListLt a b = true) :
    charListLt b a = false := by
  induction a generalizing b with
  | nil =>
    cases b with
    | nil => exact absurd h (by simp [charListLt])
    | cons y ys => rfl
  | cons x xs ih =>
    cases b with
    | nil => simp [charListLt] at h
    | cons y ys =>
      unfold charListLt at h ⊢
      by_cases h1 : x < y
      · rw [if_neg (lt_asymm h1), if_pos h1]
      · by_cases h2 : y < x
        · rw [if_neg h1, if_pos h2] at h
          exact absurd h (by simp)
        · rw [if_neg h1, if_neg h2] at h
          rw [if_neg h2, if_neg h1]
          exact ih ys h

theorem strLt_asymm (a b : String) (h : strLt a b = true) : strLt b a = false := by
  unfold strLt at h ⊢
  exact charListLt_asymm a.data b.data h

theorem latestPerDoc_pair_first (r1 r2 : StagedRow) (hdoc : r2.docId = r1.docId)
    (hlt : strLt r1.updatedAt r2.updatedAt = true) : latestPerDoc [r1, r2] = [r2] := by
  unfold latestPerDoc latestFor
  have hmap : [r1, r2].map (fun r => r.docId) = [r1.docId, r1.docId] := by simp [hdoc]
  rw [hmap]
  have hded : [r1.docId, r1.docId].dedup = [r1.docId] := by simp
  rw [hded]
  have hfil : [r1, r2].filter (fun r => decide (r.docId = r1.docId)) = [r1, r2] := by
    simp [List.filter, hdoc]
  simp only [List.filterMap, hfil]
  simp [laterOf, hlt]

theorem latestPerDoc_pair_second (r1 r2 : StagedRow) (hdoc : r2.docId = r1.docId)
    (hlt : strLt r1.updatedAt r2.updatedAt = true) : latestPerDoc [r2, r1] = [r2] := by
  unfold latestPerDoc latestFor
  have hmap : [r2, r1].map (fun r => r.docId) = [r1.docId, r1.docId] := by simp [hdoc]
  rw [hmap]
  have hded : [r1.docId, r1.docId].dedup = [r1.docId] := by simp
  rw [hded]
  have hfil : [r2, r1].filter (fun r => decide (r.docId = r1.docId)) = [r2, r1] := by
    simp [List.filter, hdoc]
  simp only [List.filterMap, hfil]
  simp [laterOf, strLt_asymm _ _ hlt]

theorem merge_single_fresh (target : List TargetRow) (s : StagedRow)
    (hdel : s.isDeleted = false)
    (htarget : ∀ t ∈ target, t.docId ≠ s.docId) :
    (mergeStaged target [s]).filter (fun t => t.docId = s.docId) = [toTargetRow s] := by
  unfold mergeStaged
  have hpart1 : target.filterMap (fun t =>
      match [s].find? (fun s2 => decide (s2.docId = t.docId)) with
      | none => some t
      | some s2 =>
        if s2.isDeleted then none
        else if strLt t.updatedAt s2.updatedAt then some (toTargetRow s2)
        else some t) = target := by
    refine filterMap_of_forall_some _ _ (fun t ht => ?_)
    have hne : (s.docId = t.docId) = False := by
      simp [Ne.symm (htarget t ht)]
    simp [List.find?, hne]
  rw [hpart1]
  have hall : (target.all fun t => !decide (t.docId = s.docId)) = true := by
    rw [List.all_eq_true]
    intro t ht
    simpa using htarget t ht
  have hpart2 : [s].filter (fun s2 => !s2.isDeleted &&
      target.all (fun t => decide (t.docId ≠ s2.docId))) = [s] := by
    simp [List.filter, hdel]
    rw [hall]
  rw [hpart2]
  rw [List.filter_append]
  have h1 : target.filter (fun t => decide (t.docId = s.docId)) = [] := by
    rw [List.filter_eq_nil_iff]
    intro t ht
    simpa using htarget t ht
  rw [h1]
  simp [toTargetRow]

/-- Claim C1: with staged rows for one docId carrying watermarks t1 < t2,
buffered in either order, and no pre-existing target row for that docId,
the reconciliation merge leaves exactly one target row for the docId and
it carries the column values of the t2 version. -/
theorem claim_C1_lww (target : List TargetRow) (r1 r2 : StagedRow) (cutoff : String)
    (hdoc : r2.docId = r1.docId)
    (hlt : strLt r1.updatedAt r2.updatedAt = true)
    (hd2 : r2.isDeleted = false)
    (htarget : ∀ t ∈ target, t.docId ≠ r1.docId) :
    ((syncUpdates target [r1, r2] cutoff).1.filter (fun t => t.docId = r1.docId)
      = [toTargetRow r2]) ∧
    ((syncUpdates target [r2, r1] cutoff).1.filter (fun t => t.docId = r1.docId)
      = [toTargetRow r2]) := by
  have htarget2 : ∀ t ∈ target, t.docId ≠ r2.docId := by
    intro t ht
    rw [hdoc]
    exact htarget t ht
  constructor
  · show (mergeStaged target (latestPerDoc [r1, r2])).filter _ = _
    rw [latestPerDoc_pair_first r1 r2 hdoc hlt]
    have := merge_single_fresh target r2 hd2 htarget2
    rw [hdoc] at this
    exact this
  · show (mergeStaged target (latestPerDoc [r2, r1])).filter _ = _
    rw [latestPerDoc_pair_second r1 r2 hdoc hlt]
    have := merge_single_fresh target r2 hd2 htarget2
    rw [hdoc] at this
    exact this

theorem claim_C1_witness :
    ((syncUpdates [] [⟨"X", "t1", false, [("v", JVal.jStr "old")]⟩,
        ⟨"X", "t2", false, [("v", JVal.jStr "new")]⟩] "t0").1.filter
      (fun t => t.docId = "X") = [⟨"X", "t2", [("v", JVal.jStr "new")]⟩]) ∧
    ((syncUpdates [] [⟨"X", "t2", false, [("v", JVal.jStr "new")]⟩,
        ⟨"X", "t1", false, [("v", JVal.jStr "old")]⟩] "t0").1.filter
      (fun t => t.docId = "X") = [⟨"X", "t2", [("v", JVal.jStr "new")]⟩]) :=
  claim_C1_lww [] ⟨"X", "t1", false, [("v", JVal.jStr "old")]⟩
    ⟨"X", "t2", false, [("v", JVal.jStr "new")]⟩ "t0" rfl (by decide) rfl
    (by intro t ht; cases ht)

theorem bagRows_all_empty (boxData : JVal) (rowCommon : BoxRow)
    (cids : List String) (acc : List BoxRow)
    (h : ∀ cid ∈ cids, bagHasTube boxData cid = false) :
    bagRows boxData rowCommon cids acc = .ok acc := by
  induction cids generalizing acc with
  | nil => rfl
  | cons c cs ih =>
    unfold bagRows
    rw [h c (by simp)]
    simp only [Bool.false_eq_true, if_false]
    exact ih acc (fun cid hc => h cid (by simp [hc]))

/-- Claim C6: a decoded container document with no populated bag slot
fans out to zero item rows; the concrete two-bag, two-tube container
`exBox` fans out to exactly four item rows, each replicating the
container-level common fields verbatim and carrying the owning bag type
indicator, attributes and tube identifier. -/
theorem claim_C6_flattenBox :
    (∀ fs : List (String × JVal),
      (∀ cid ∈ bagCidArray, bagHasTube (JVal.jObj fs) cid = false) →
      flattenBoxData (JVal.jObj fs) = .ok []) ∧
    flattenBoxData exBox =
      .ok [exRow "BAG1" "Blood/Urine" "S1" "V1" "T1",
           exRow "BAG1" "Blood/Urine" "S1" "V1" "T2",
           exRow "BAG2" "Mouth wash" "" "V2" "T3",
           exRow "BAG2" "Mouth wash" "" "V2" "T4"] := by
  constructor
  · intro fs h
    unfold flattenBoxData
    exact bagRows_all_empty _ _ _ _ h
  · rfl

theorem claim_C6_witness :
    flattenBoxData (JVal.jObj [("d_672863981", JVal.jStr "site")]) = .ok [] :=
  claim_C6_flattenBox.1 [("d_672863981", JVal.jStr "site")] (by decide)

theorem bagRows_mem (boxData : JVal) (rowCommon : BoxRow) (cids : List String)
    (acc rows : List BoxRow) (h : bagRows boxData rowCommon cids acc = .ok rows) :
    ∀ r ∈ rows, r ∈ acc ∨ ∃ bag tubeID, r = rowCommon ++ bagTail bag tubeID := by
  induction cids generalizing acc with
  | nil =>
    intro r hr
    unfold bagRows at h
    cases h
    exact Or.inl hr
  | cons c cs ih =>
    intro r hr
    unfold bagRows at h
    by_cases hht : bagHasTube boxData c = true
    · rw [hht] at h
      simp only [if_true] at h
      split at h
      next bag hbag =>
        split at h
        next tubesVal htv =>
          split at h
          next e hit => cases h
          next tubes hit =>
            rcases ih _ h r hr with hacc | hshape
            · rcases List.mem_append.mp hacc with hacc2 | hmap
              · exact Or.inl hacc2
              · rcases List.mem_map.mp hmap with ⟨tubeID, _, heq⟩
                exact Or.inr ⟨bag, tubeID, heq.symm⟩
            · exact Or.inr hshape
        next htv => cases h
      next hbag => cases h
    · rw [Bool.not_eq_true] at hht
      rw [hht] at h
      simp only [Bool.false_eq_true, if_false] at h
      exact ih _ h r hr

theorem flattenBoxData_mem_shape (boxData : JVal) (rows : List BoxRow)
    (h : flattenBoxData boxData = .ok rows) :
    ∀ r ∈ rows, ∃ bag tubeID,
      r = (boxRowCommonKeyArray.map
            (fun key => (key, boxCommonValue (jsGet boxData key)))) ++ bagTail bag tubeID := by
  intro r hr
  cases boxData <;> simp only [flattenBoxData] at h
  case jNull => cases h
  all_goals
    rcases bagRows_mem _ _ _ _ _ h r hr with hacc | hshape
  all_goals first
  | cases hacc
  | exact hshape

theorem box_row_keys (boxData bag tubeID : JVal) :
    (((boxRowCommonKeyArray.map
        (fun key => (key, boxCommonValue (jsGet boxData key)))) ++
      bagTail bag tubeID).map Prod.fst) =
    boxRowCommonKeyArray ++ ["bagID", "bagType", "d_469819603", "d_255283733", "tubeID"] := by
  rw [List.map_append, List.map_map]
  have hcomp : (Prod.fst ∘ fun key => (key, boxCommonValue (boxData.jsGet key))) =
      (id : String → String) := funext (fun k => rfl)
  rw [hcomp, List.map_id]
  rfl

/-- Claim C10: rows buffered for the fan-out entity are never projected
against the entity schema — the outcome is the same under any schema
registry that knows the table, the inserted rows are exactly the
`flattenBoxData` fan-out of the nested decode with the three meta fields
prepended, and every inserted row carries exactly the fixed key list
(docId, createdAt, updatedAt, the seventeen common keys, bagID, bagType,
d_469819603, d_255283733, tubeID). -/
theorem claim_C10_box_rows (cfg cfg2 : Config) (table docId : String)
    (mask : Option (List String)) (fields : JVal) (cs cn us un : Int)
    (fuel : Nat) (sch sch2 : List String) (outcome : BoxOutcome)
    (hsch : cfg.schemas table = some sch)
    (hsch2 : cfg2.schemas table = some sch2)
    (hrun : streamBoxesUpdatesToBuffer cfg table docId mask fields cs cn us un fuel
      = .ok outcome) :
    (streamBoxesUpdatesToBuffer cfg2 table docId mask fields cs cn us un fuel
      = .ok outcome) ∧
    ((updateMaskAllIgnored table mask = true ∧ outcome.inserted = []) ∨
      ∃ boxData warns rows,
        cleanupFieldsData table fields fuel = .ok (boxData, warns) ∧
        flattenBoxData boxData = .ok rows ∧
        outcome.inserted = rows.map
          (addBoxMeta docId (isoOfMs (protoMs cs cn)) (isoOfMs (protoMs us un)))) ∧
    (∀ row ∈ outcome.inserted, row.map Prod.fst = boxInsertedKeys) := by
  unfold streamBoxesUpdatesToBuffer at hrun
  rw [hsch] at hrun
  have hbody : streamBoxesBody table docId mask fields cs cn us un fuel = .ok outcome := hrun
  constructor
  · unfold streamBoxesUpdatesToBuffer
    rw [hsch2]
    exact hbody
  unfold streamBoxesBody at hbody
  split at hbody
  next hmask =>
    cases hbody
    refine ⟨Or.inl ⟨hmask, rfl⟩, ?_⟩
    intro row hrow
    cases hrow
  next hmask =>
    split at hbody
    next e heq => cases hbody
    next boxData warns heq =>
      split at hbody
      next e heq2 => cases hbody
      next rows heq2 =>
        split at hbody
        next hemp =>
          cases hbody
          refine ⟨Or.inr ⟨boxData, warns, rows, heq, heq2, ?_⟩, ?_⟩
          · rw [List.isEmpty_iff.mp hemp]
            rfl
          · intro row hrow
            cases hrow
        next hemp =>
          cases hbody
          refine ⟨Or.inr ⟨boxData, warns, rows, heq, heq2, rfl⟩, ?_⟩
          intro row hrow
          rcases List.mem_map.mp hrow with ⟨r, hrmem, heqr⟩
          rcases flattenBoxData_mem_shape boxData rows heq2 r hrmem with ⟨bag, tubeID, hshape⟩
          rw [← heqr, hshape]
          show (("docId", _) :: ("createdAt", _) :: ("updatedAt", _) :: _).map Prod.fst = _
          simp only [List.map_cons, box_row_keys]
          rfl

theorem claim_C10_witness :
    (streamBoxesUpdatesToBuffer ⟨fun _ => some ["b"], fun _ _ => none⟩ "boxes" "d1"
      none (JVal.jObj []) 0 0 0 0 10 = .ok ⟨[], []⟩) ∧
    ((updateMaskAllIgnored "boxes" none = true ∧ (BoxOutcome.mk [] []).inserted = []) ∨
      ∃ boxData warns rows,
        cleanupFieldsData "boxes" (JVal.jObj []) 10 = .ok (boxData, warns) ∧
        flattenBoxData boxData = .ok rows ∧
        (BoxOutcome.mk [] []).inserted = rows.map
          (addBoxMeta "d1" (isoOfMs (protoMs 0 0)) (isoOfMs (protoMs 0 0)))) ∧
    (∀ row ∈ (BoxOutcome.mk [] []).inserted, row.map Prod.fst = boxInsertedKeys) :=
  claim_C10_box_rows ⟨fun _ => some ["a"], fun _ _ => none⟩
    ⟨fun _ => some ["b"], fun _ _ => none⟩ "boxes" "d1" none (JVal.jObj [])
    0 0 0 0 10 ["a"] ["b"] ⟨[], []⟩ rfl rfl rfl

/-- Claim C3 (amended): for every entity, flattened-mode decoding of a
field holding an array whose path is not in the Multi-select Catalog
stores the ordered recovered scalar list under the sanitised path of the field
key — the field is not dropped, and the only warnings are the ones
`recoverArray` itself emits for non-scalar elements. -/
theorem claim_C3_amended (cfg : Config) (table f : String) (vs : List JVal)
    (recovered : List JVal) (ws : List String) (fuel : Nat)
    (hig : ignoredTopHas table f = false)
    (hwk : wrongKeysHas f = false)
    (hcat : cfg.arrays table (sanTopFlat f) = none)
    (hrec : recoverArrayList vs = .ok (recovered, ws)) :
    cleanupAndFlattenFields cfg table
      (JVal.jObj [(f, JVal.jObj [("arrayValue", JVal.jObj [("values", JVal.jArr vs)])])])
      (fuel + 1)
    = .ok (JVal.jObj [(sanTopFlat f, JVal.jArr recovered)], ws) := by
  have hnest : ignoredNestedHas table "arrayValue" = false :=
    ignoredNestedHas_of_ne table _ (by decide)
  simp [cleanupAndFlattenFields, flattenInit, flattenLoop, flattenTag, recoverArray,
    jsIterate, jsGet, setKey, jsIsObject, jsForIn, hig, hwk, hnest, hcat, hrec]

theorem claim_C3_witness :
    cleanupAndFlattenFields cfgEmpty "biospecimen"
      (JVal.jObj [("g", JVal.jObj [("arrayValue", JVal.jObj [("values",
        JVal.jArr [JVal.jObj [("stringValue", JVal.jStr "v")]])])])]) 5
    = .ok (JVal.jObj [("g", JVal.jArr [JVal.jStr "v"])], []) :=
  claim_C3_amended cfgEmpty "biospecimen" "g"
    [JVal.jObj [("stringValue", JVal.jStr "v")]] [JVal.jStr "v"] [] 4
    rfl rfl rfl rfl

/-- Claim C5 (amended): in flattened mode the dot-to-underscore
replacement is applied only to top-level field-map keys (`sanTopFlat`);
a nested map key receives only the leading-digit prefix (`digitKey`), so
its dots are preserved in the emitted key path. -/
theorem claim_C5_amended (cfg : Config) (table k mk s : String) (fuel : Nat)
    (hig : ignoredTopHas table k = false)
    (hwk : wrongKeysHas k = false)
    (hmx : mixedHas table (sanTopFlat k ++ "_" ++ digitKey mk) = false) :
    cleanupAndFlattenFields cfg table
      (JVal.jObj [(k, JVal.jObj [("mapValue", JVal.jObj [("fields",
        JVal.jObj [(mk, JVal.jObj [("stringValue", JVal.jStr s)])])])])])
      (fuel + 2)
    = .ok (JVal.jObj [(sanTopFlat k ++ "_" ++ digitKey mk, JVal.jStr s)], []) := by
  have hnestm : ignoredNestedHas table "mapValue" = false :=
    ignoredNestedHas_of_ne table _ (by decide)
  have hnests : ignoredNestedHas table "stringValue" = false :=
    ignoredNestedHas_of_ne table _ (by decide)
  simp [cleanupAndFlattenFields, flattenInit, flattenLoop, flattenTag, jsGet, setKey,
    jsIsObject, jsForIn, hig, hwk, hnestm, hnests, hmx]

theorem claim_C5_witness :
    cleanupAndFlattenFields cfgEmpty "biospecimen"
      (JVal.jObj [("m", JVal.jObj [("mapValue", JVal.jObj [("fields",
        JVal.jObj [("a.b", JVal.jObj [("stringValue", JVal.jStr "x")])])])])]) 6
    = .ok (JVal.jObj [("m_a.b", JVal.jStr "x")], []) :=
  claim_C5_amended cfgEmpty "biospecimen" "m" "a.b" "x" 4 rfl rfl rfl

theorem cleanupFlat_not_arr (cfg : Config) (table : String) (fields : JVal)
    (fuel : Nat) (flat : JVal) (w : List String)
    (h : cleanupAndFlattenFields cfg table fields fuel = .ok (flat, w)) :
    ∀ l, flat ≠ JVal.jArr l := by
  unfold cleanupAndFlattenFields at h
  split at h
  next hobj =>
    split at h
    next e heq => cases h
    next fl ws heq =>
      cases h
      intro l hl
      cases hl
  next hobj =>
    cases h
    intro l hl
    subst hl
    exact hobj (by simp [jsIsObject])

theorem mem_keys_setKey (fs : List (String × JVal)) (k : String) (v : JVal)
    (a : String) (ha : a ∈ (setKey fs k v).map Prod.fst) :
    a ∈ fs.map Prod.fst ∨ a = k := by
  unfold setKey at ha
  split at ha
  next hany =>
    left
    have hmm : (fs.map (fun p => if p.1 = k then (k, v) else p)).map Prod.fst
        = fs.map Prod.fst := by
      rw [List.map_map]
      apply List.map_congr_left
      intro p hp
      by_cases hpk : p.1 = k
      · simp [hpk]
      · simp [hpk]
    rwa [hmm] at ha
  next hany =>
    rw [List.map_append] at ha
    rcases List.mem_append.mp ha with h1 | h2
    · exact Or.inl h1
    · right
      simpa using h2

theorem mem_keys_foldl_setKey (l : List (String × JVal))
    (base : List (String × JVal)) (a : String)
    (h : a ∈ (l.foldl (fun b kv => setKey b kv.1 kv.2) base).map Prod.fst) :
    a ∈ base.map Prod.fst ∨ a ∈ l.map Prod.fst := by
  induction l generalizing base with
  | nil => exact Or.inl h
  | cons x xs ih =>
    rcases ih (setKey base x.1 x.2) h with hb | hl
    · rcases mem_keys_setKey _ _ _ _ hb with h1 | h2
      · exact Or.inl h1
      · exact Or.inr (by simp [h2])
    · exact Or.inr (by simp [hl])

theorem mem_keys_foldl_del (extras : List String) (fs : List (String × JVal))
    (a : String)
    (h : a ∈ ((extras.foldl (fun fs k => fs.filter (fun p => p.1 ≠ k)) fs).map Prod.fst)) :
    a ∈ fs.map Prod.fst ∧ a ∉ extras := by
  induction extras generalizing fs with
  | nil => exact ⟨h, by simp⟩
  | cons e es ih =>
    rcases ih (fs.filter (fun p => p.1 ≠ e)) h with ⟨hmem, hnotin⟩
    have hstep : a ∈ fs.map Prod.fst ∧ a ≠ e := by
      rcases List.mem_map.mp hmem with ⟨p, hp, rfl⟩
      have hpf := List.mem_filter.mp hp
      exact ⟨List.mem_map.mpr ⟨p, hpf.1, rfl⟩, by simpa using hpf.2⟩
    exact ⟨hstep.1, by simp [hstep.2, hnotin]⟩

theorem keys_sub_of_extras_nil (schemaNames : List String) (flat : JVal)
    (h : streamExtras schemaNames flat = []) :
    ∀ a ∈ (jsForIn flat).map Prod.fst, schemaNames.contains a = true := by
  intro a ha
  unfold streamExtras at h
  have := List.filter_eq_nil_iff.mp h a ha
  simpa using this

theorem keys_sub_after_delete (schemaNames : List String) (flat flat2 : JVal)
    (hnotarr : ∀ l, flat ≠ JVal.jArr l)
    (hdel : deleteExtraKeys flat (streamExtras schemaNames flat) = .ok flat2) :
    ∀ a ∈ (jsForIn flat2).map Prod.fst, schemaNames.contains a = true := by
  cases flat with
  | jArr l => exact absurd rfl (hnotarr l)
  | jNull =>
    cases hdel
    intro a ha
    simp [jsForIn] at ha
  | jNum n =>
    cases hdel
    intro a ha
    simp [jsForIn] at ha
  | jBool b =>
    cases hdel
    intro a ha
    simp [jsForIn] at ha
  | jStr s =>
    simp only [deleteExtraKeys] at hdel
    split at hdel
    next hemp =>
      cases hdel
      exact keys_sub_of_extras_nil _ _ (List.isEmpty_iff.mp hemp)
    next hemp => cases hdel
  | jObj fs =>
    simp only [deleteExtraKeys] at hdel
    cases hdel
    intro a ha
    have h2 := mem_keys_foldl_del (streamExtras schemaNames (JVal.jObj fs)) fs a
      (by simpa [jsForIn] using ha)
    by_contra hcontains
    apply h2.2
    unfold streamExtras
    refine List.mem_filter.mpr ⟨by simpa [jsForIn] using h2.1, by simpa using hcontains⟩

/-- Claim C2: whenever `streamUpdatesToBuffer` hands a row to the buffer
insert, and the entity schema names include the three common fields (which
the schema builder `formatSchemas` prepends to every table schema), every
key of that row is a schema field name; and the presence of decoded fields
outside the schema is reported through exactly one `saveWarning` call
whose message carries the single aggregated extra-field text naming all
extra field names, while no extra-field warning is issued otherwise. -/
theorem claim_C2_projection (cfg : Config) (table docId : String)
    (mask : Option (List String)) (fields : JVal) (cs cn us un : Int) (fuel : Nat)
    (schemaNames : List String) (outcome : StreamOutcome) (row : List (String × JVal))
    (hsch : cfg.schemas table = some schemaNames)
    (hd : schemaNames.contains "docId" = true)
    (hc : schemaNames.contains "createdAt" = true)
    (hu : schemaNames.contains "updatedAt" = true)
    (hrun : streamUpdatesToBuffer cfg table docId mask fields cs cn us un fuel
      = .ok outcome)
    (hins : outcome.inserted = some row) :
    (∀ a ∈ row.map Prod.fst, schemaNames.contains a = true) ∧
    (∃ flat warns, cleanupAndFlattenFields cfg table fields fuel = .ok (flat, warns) ∧
      (streamExtras schemaNames flat = [] → outcome.warningCalls = []) ∧
      (streamExtras schemaNames flat ≠ [] →
        outcome.warningCalls = [⟨table, docId, flat,
          sortedJoin (warns ++ [extraMsg (streamExtras schemaNames flat)])⟩])) := by
  unfold streamUpdatesToBuffer at hrun
  rw [hsch] at hrun
  have hbody : streamUpdatesBody cfg table docId schemaNames mask fields cs cn us un fuel
      = .ok outcome := hrun
  unfold streamUpdatesBody at hbody
  split at hbody
  next hmask =>
    cases hbody
    exact absurd hins (by simp)
  next hmask =>
    split at hbody
    next e heq => cases hbody
    next flat warns heq =>
      split at hbody
      next hnull => cases hbody
      next hnull =>
        split at hbody
        next e hdel => cases hbody
        next flat2 hdel =>
          cases hbody
          have hrow : row = spreadInto
              [("docId", JVal.jStr docId),
               ("createdAt", JVal.jStr (isoOfMs (protoMs cs cn))),
               ("updatedAt", JVal.jStr (isoOfMs (protoMs us un)))] flat2 := by
            simpa using hins.symm
          constructor
          · intro a ha
            rw [hrow] at ha
            unfold spreadInto at ha
            rcases mem_keys_foldl_setKey _ _ _ ha with hbase | hv
            · simp only [List.map_cons, List.map_nil, List.mem_cons,
                List.not_mem_nil, or_false] at hbase
              rcases hbase with h1 | h1 | h1
              · rw [h1]; exact hd
              · rw [h1]; exact hc
              · rw [h1]; exact hu
            · exact keys_sub_after_delete schemaNames flat flat2
                (cleanupFlat_not_arr cfg table fields fuel flat warns heq) hdel a hv
          · refine ⟨flat, warns, heq, ?_, ?_⟩
            · intro hnil
              show streamWarnCalls table docId schemaNames flat warns = []
              unfold streamWarnCalls
              rw [hnil]
              rfl
            · intro hne
              show streamWarnCalls table docId schemaNames flat warns = _
              unfold streamWarnCalls
              rw [if_neg (by simpa using hne)]

theorem claim_C2_witness :
    (∀ a ∈ ([("docId", JVal.jStr "d1"),
        ("createdAt", JVal.jStr (isoOfMs (protoMs 1 0))),
        ("updatedAt", JVal.jStr (isoOfMs (protoMs 2 0))),
        ("f2", JVal.jStr "a")] : List (String × JVal)).map Prod.fst,
      (["docId", "createdAt", "updatedAt", "f2"] : List String).contains a = true) ∧
    (∃ flat warns,
      cleanupAndFlattenFields
        ⟨fun _ => some ["docId", "createdAt", "updatedAt", "f2"], fun _ _ => none⟩
        "module1_v1"
        (JVal.jObj [("f2", JVal.jObj [("stringValue", JVal.jStr "a")]),
                    ("f9", JVal.jObj [("stringValue", JVal.jStr "b")])]) 20
        = .ok (flat, warns) ∧
      (streamExtras ["docId", "createdAt", "updatedAt", "f2"] flat = [] →
        (StreamOutcome.mk
          (some [("docId", JVal.jStr "d1"),
            ("createdAt", JVal.jStr (isoOfMs (protoMs 1 0))),
            ("updatedAt", JVal.jStr (isoOfMs (protoMs 2 0))),
            ("f2", JVal.jStr "a")])
          [⟨"module1_v1", "d1", JVal.jObj [("f9", JVal.jStr "b"), ("f2", JVal.jStr "a")],
            "Extra 1 field(s) found in data: f9"⟩]).warningCalls = []) ∧
      (streamExtras ["docId", "createdAt", "updatedAt", "f2"] flat ≠ [] →
        (StreamOutcome.mk
          (some [("docId", JVal.jStr "d1"),
            ("createdAt", JVal.jStr (isoOfMs (protoMs 1 0))),
            ("updatedAt", JVal.jStr (isoOfMs (protoMs 2 0))),
            ("f2", JVal.jStr "a")])
          [⟨"module1_v1", "d1", JVal.jObj [("f9", JVal.jStr "b"), ("f2", JVal.jStr "a")],
            "Extra 1 field(s) found in data: f9"⟩]).warningCalls
          = [⟨"module1_v1", "d1", flat, sortedJoin (warns ++
              [extraMsg (streamExtras ["docId", "createdAt", "updatedAt", "f2"] flat)])⟩])) :=
  claim_C2_projection
    ⟨fun _ => some ["docId", "createdAt", "updatedAt", "f2"], fun _ _ => none⟩
    "module1_v1" "d1" none
    (JVal.jObj [("f2", JVal.jObj [("stringValue", JVal.jStr "a")]),
                ("f9", JVal.jObj [("stringValue", JVal.jStr "b")])])
    1 0 2 0 20 ["docId", "createdAt", "updatedAt", "f2"]
    ⟨some [("docId", JVal.jStr "d1"),
        ("createdAt", JVal.jStr (isoOfMs (protoMs 1 0))),
        ("updatedAt", JVal.jStr (isoOfMs (protoMs 2 0))),
        ("f2", JVal.jStr "a")],
      [⟨"module1_v1", "d1", JVal.jObj [("f9", JVal.jStr "b"), ("f2", JVal.jStr "a")],
        "Extra 1 field(s) found in data: f9"⟩]⟩
    [("docId", JVal.jStr "d1"),
     ("createdAt", JVal.jStr (isoOfMs (protoMs 1 0))),
     ("updatedAt", JVal.jStr (isoOfMs (protoMs 2 0))),
     ("f2", JVal.jStr "a")]
    rfl rfl rfl rfl rfl rfl
